import Mathlib

/-!
Shallow embedding of `src/chain/blockchain_client.py` (the voidcoin ledger
engine): the `Transaction` payload dictionary, the `Blockchain` class with its
pending-transaction buffer, chain, and node registry, and the operations
`add_transaction_to_current_array`, `create_block_and_add_to_chain`, `hash`,
`proof_of_work`, `valid_proof`, `valid_chain`, `resolve_conflicts`,
`register_node`, `last_block`, `verify_transaction_signature`.

Modelling conventions:
* SHA-256 hex digests are kept abstract: every hashing definition takes a
  parameter `H : String → String` standing for
  `hashlib.sha256(s.encode()).hexdigest()`.  All call sites share the same `H`,
  mirroring the single hash function of the source.
* `time()` instants are opaque: modelled as `Nat` arguments supplied by the
  caller.  Transaction amounts are modelled by their textual form (`String`)
  because the source only ever uses them inside `str(...)`/JSON encodings.
* Raised Python exceptions are modelled with `Except PyError`.  Operations that
  mutate `self` return the post-state alongside, so that the state after an
  exception is also visible.
-/

/-- Python exception classes the embedded code can raise. -/
inductive PyError
  | typeError
  | valueError
  | keyError
  | indexError
  | connectionError
deriving DecidableEq, Repr

/-- Difficulty constant `MINING_DIFFICULTY = 2` (line 18). -/
def MINING_DIFFICULTY : Nat := 2

/-- Privileged mint identity `MINING_SENDER = 'VOIDCOIN'` (line 19). -/
def MINING_SENDER : String := "VOIDCOIN"

/-- Transaction dictionary as built by `add_transaction_to_current_array`
(lines 97-99): an `OrderedDict` with keys `sender_address`,
`recipient_address`, `amount`, in that order. -/
structure Txn where
  sender_address : String
  recipient_address : String
  amount : String
deriving DecidableEq, Repr

/-- Transaction dictionary as rebuilt inside `valid_chain` (lines 199-200),
keyed `sender_address`, `recipient_address`, `value`. -/
structure RTxn where
  sender_address : String
  recipient_address : String
  value : String
deriving DecidableEq, Repr

/-- Block dictionary built by `create_block_and_add_to_chain` (lines 118-122),
with fields in the source order. -/
structure Block where
  block_number : Nat
  timestamp : Nat
  transactions : List Txn
  nonce : Nat
  previous_hash : String
deriving DecidableEq, Repr

/-- State of a `Blockchain` instance (lines 48-56): the pending-transaction
buffer, the chain, the node registry (an `OrderedDict` mapping netloc to the
`time()` value recorded at registration, modelled as an association list), and
the node id. -/
structure Blockchain where
  transactions : List Txn
  chain : List Block
  nodes : List (String × Nat)
  node_id : String
deriving DecidableEq, Repr

/-- Python single-quote character, used by `str()`/`repr()` of strings. -/
def pysq : String := String.singleton (Char.ofNat 39)

/-- Python `repr` of a `str` (escaping of quotes inside the payload elided). -/
def pyQuote (s : String) : String := pysq ++ s ++ pysq

/-- JSON string literal (escaping elided). -/
def jsonQuote (s : String) : String := "\"" ++ s ++ "\""

/-- Python `str()` of the transaction `OrderedDict` (key order
`sender_address`, `recipient_address`, `amount` as built on lines 97-99). -/
def repr_txn (t : Txn) : String :=
  "OrderedDict([(" ++ pyQuote "sender_address" ++ ", " ++ pyQuote t.sender_address ++
  "), (" ++ pyQuote "recipient_address" ++ ", " ++ pyQuote t.recipient_address ++
  "), (" ++ pyQuote "amount" ++ ", " ++ t.amount ++ ")])"

/-- Python `str()` of a list of transaction dictionaries. -/
def repr_txn_list (ts : List Txn) : String :=
  "[" ++ String.intercalate ", " (ts.map repr_txn) ++ "]"

/-- Python `str()` of the rebuilt transaction dictionary of `valid_chain`
(key order `sender_address`, `recipient_address`, `value`, line 199). -/
def repr_rtxn (t : RTxn) : String :=
  "OrderedDict([(" ++ pyQuote "sender_address" ++ ", " ++ pyQuote t.sender_address ++
  "), (" ++ pyQuote "recipient_address" ++ ", " ++ pyQuote t.recipient_address ++
  "), (" ++ pyQuote "value" ++ ", " ++ t.value ++ ")])"

/-- Python `str()` of a list of rebuilt transaction dictionaries. -/
def repr_rtxn_list (ts : List RTxn) : String :=
  "[" ++ String.intercalate ", " (ts.map repr_rtxn) ++ "]"

/-- JSON encoding of a transaction under `json.dumps(..., sort_keys=True)`:
keys sorted alphabetically (`amount`, `recipient_address`, `sender_address`). -/
def json_txn (t : Txn) : String :=
  "\x7b" ++ jsonQuote "amount" ++ ": " ++ t.amount ++
  ", " ++ jsonQuote "recipient_address" ++ ": " ++ jsonQuote t.recipient_address ++
  ", " ++ jsonQuote "sender_address" ++ ": " ++ jsonQuote t.sender_address ++ "\x7d"

/-- JSON encoding of a block under `json.dumps(block, sort_keys=True)`
(line 135): keys sorted alphabetically (`block_number`, `nonce`,
`previous_hash`, `timestamp`, `transactions`). -/
def json_dumps_block (b : Block) : String :=
  "\x7b" ++ jsonQuote "block_number" ++ ": " ++ Nat.repr b.block_number ++
  ", " ++ jsonQuote "nonce" ++ ": " ++ Nat.repr b.nonce ++
  ", " ++ jsonQuote "previous_hash" ++ ": " ++ jsonQuote b.previous_hash ++
  ", " ++ jsonQuote "timestamp" ++ ": " ++ Nat.repr b.timestamp ++
  ", " ++ jsonQuote "transactions" ++ ": [" ++
  String.intercalate ", " (b.transactions.map json_txn) ++ "]\x7d"

/-- Static method `Blockchain.hash` (lines 130-136): SHA-256 hex digest of the
block's sorted-keys JSON encoding.  `H` is the abstract SHA-256. -/
def Blockchain.hash (H : String → String) (block : Block) : String :=
  H (json_dumps_block block)

/-- String `'0' * difficulty` (line 168). -/
def zeros (d : Nat) : String := String.mk (List.replicate d (Char.ofNat 48))

/-- Core of `valid_proof` (lines 166-168) applied to an already stringified
transaction list: hash the concatenation `str(transactions) + str(last_hash) +
str(nonce)` and compare the first `difficulty` hex characters with zeros. -/
def valid_proof_core (H : String → String) (txnsRepr lastHash : String)
    (nonce : Nat) (difficulty : Nat) : Bool :=
  (H (txnsRepr ++ lastHash ++ Nat.repr nonce)).take difficulty == zeros difficulty

/-- Method `valid_proof` (lines 148-168) at its `proof_of_work` call site,
where `transactions` is the pending buffer (a list of `Txn` dictionaries). -/
def valid_proof (H : String → String) (transactions : List Txn)
    (lastHash : String) (nonce : Nat) (difficulty : Nat) : Bool :=
  valid_proof_core H (repr_txn_list transactions) lastHash nonce difficulty

/-- Method `valid_proof` at its `valid_chain` call site (line 202), where
`transactions` is the rebuilt list of `RTxn` dictionaries. -/
def valid_proof_r (H : String → String) (transactions : List RTxn)
    (lastHash : String) (nonce : Nat) (difficulty : Nat) : Bool :=
  valid_proof_core H (repr_rtxn_list transactions) lastHash nonce difficulty

/-- Dictionary lookup `transaction[k]` on a stored transaction, whose keys are
exactly `sender_address`, `recipient_address`, `amount`; any other key raises
`KeyError`. -/
def txn_item (t : Txn) (k : String) : Except PyError String :=
  if k = "sender_address" then Except.ok t.sender_address
  else if k = "recipient_address" then Except.ok t.recipient_address
  else if k = "amount" then Except.ok t.amount
  else Except.error PyError.keyError

/-- One step of the rebuild on lines 199-200:
`OrderedDict((k, transaction[k]) for k in ['sender_address',
'recipient_address', 'value'])`.  The third lookup uses key `value`, which a
stored transaction does not have. -/
def reconstruct (t : Txn) : Except PyError RTxn := do
  let s ← txn_item t "sender_address"
  let r ← txn_item t "recipient_address"
  let v ← txn_item t "value"
  pure ⟨s, r, v⟩

/-- List comprehension on line 200, with Python's eager left-to-right
evaluation: the first raising element aborts the whole rebuild. -/
def reconstruct_list : List Txn → Except PyError (List RTxn)
  | [] => Except.ok []
  | t :: ts =>
    match reconstruct t with
    | Except.error e => Except.error e
    | Except.ok rt =>
      match reconstruct_list ts with
      | Except.error e => Except.error e
      | Except.ok rts => Except.ok (rt :: rts)

/-- Body of the `while` loop of `valid_chain` (lines 187-206): `last` is the
current `last_block`, the list argument holds the blocks from `current_index`
on. -/
def valid_chain_loop (H : String → String) (last : Block) :
    List Block → Except PyError Bool
  | [] => Except.ok true
  | block :: rest =>
    if block.previous_hash ≠ Blockchain.hash H last then Except.ok false
    else
      match reconstruct_list block.transactions.dropLast with
      | Except.error e => Except.error e
      | Except.ok rts =>
        if valid_proof_r H rts block.previous_hash block.nonce MINING_DIFFICULTY then
          valid_chain_loop H block rest
        else Except.ok false

/-- Method `valid_chain` (lines 170-208).  `chain[0]` on an empty list raises
`IndexError`; otherwise the loop walks the chain from index 1. -/
def valid_chain (H : String → String) (chain : List Block) : Except PyError Bool :=
  match chain with
  | [] => Except.error PyError.indexError
  | c0 :: rest => valid_chain_loop H c0 rest

/-- Outcome of line 88, `RSA.importKey(binascii.unhexlify(sender_address))`:
`invalid` means that call raises (non-hex input or structurally bad key data
raise `ValueError`-class errors); `valid` means it returns a key object. -/
inductive KeyParse
  | invalid
  | valid
deriving DecidableEq, Repr

/-- Method `verify_transaction_signature` (lines 76-91).  Line 88 parses the
key (see `KeyParse`).  With a well-formed key, line 90 evaluates
`SHA.new(str(transaction)).encode('utf-8')`: the closing parenthesis is
misplaced, so `SHA.new` is handed a `str` instead of bytes (`TypeError` in
pycryptodome) and, even were that accepted, `.encode` would be looked up on the
SHA hash object, which has no such attribute.  Line 90 therefore raises on
every call, before `verifier.verify` ever runs; the raise is modelled as
`TypeError`.  `parseKey` abstracts which addresses parse as RSA keys. -/
def verify_transaction_signature (parseKey : String → KeyParse)
    (sender_address signature : String) (transaction : Txn) :
    Except PyError Bool :=
  match parseKey sender_address with
  | KeyParse.invalid => Except.error PyError.valueError
  | KeyParse.valid =>
    let _ := signature
    let _ := transaction
    Except.error PyError.typeError

/-- Return value of `add_transaction_to_current_array`: the sequence number
`len(chain) + 1` of the next block, or Python `False`. -/
inductive AddResult
  | next_block (n : Nat)
  | rejected
deriving DecidableEq, Repr

/-- Method `add_transaction_to_current_array` (lines 93-112).  Builds the
three-field transaction dictionary, appends it unconditionally for the mint
sender, and otherwise gates the append on `verify_transaction_signature`. -/
def add_transaction_to_current_array (parseKey : String → KeyParse)
    (st : Blockchain) (sender_address recipient_address amount signature : String) :
    Except PyError AddResult × Blockchain :=
  let transaction : Txn := ⟨sender_address, recipient_address, amount⟩
  if sender_address = MINING_SENDER then
    (Except.ok (AddResult.next_block (st.chain.length + 1)),
      { st with transactions := st.transactions ++ [transaction] })
  else
    match verify_transaction_signature parseKey sender_address signature transaction with
    | Except.error e => (Except.error e, st)
    | Except.ok true =>
      (Except.ok (AddResult.next_block (st.chain.length + 1)),
        { st with transactions := st.transactions ++ [transaction] })
    | Except.ok false => (Except.ok AddResult.rejected, st)

/-- Method `create_block_and_add_to_chain` (lines 114-128): build the block
from the pending buffer, reset the buffer, append the block. -/
def create_block_and_add_to_chain (st : Blockchain) (now : Nat)
    (nonce : Nat) (previous_hash : String) : Block × Blockchain :=
  let block : Block :=
    { block_number := st.chain.length + 1
      timestamp := now
      transactions := st.transactions
      nonce := nonce
      previous_hash := previous_hash }
  (block, { st with transactions := [], chain := st.chain ++ [block] })

/-- Constructor `__init__` (lines 48-56): empty buffer, empty chain, empty
registry, then the genesis call `create_block_and_add_to_chain(0, '00')`. -/
def Blockchain.init (node_id : String) (t0 : Nat) : Blockchain :=
  let st : Blockchain := ⟨[], [], [], node_id⟩
  (create_block_and_add_to_chain st t0 0 "00").2

/-- Assignment `d[k] = v` on an `OrderedDict`: an existing key keeps its
position and gets the new value, a fresh key is appended. -/
def odict_set (d : List (String × Nat)) (k : String) (v : Nat) :
    List (String × Nat) :=
  if d.any (fun kv => kv.1 == k) then
    d.map (fun kv => if kv.1 = k then (k, v) else kv)
  else d ++ [(k, v)]

/-- Method `register_node` (lines 58-74).  `urlparse` is modelled by passing
its `netloc` and `path` results; Python truthiness of a `str` is
non-emptiness.  An empty netloc and path raise `ValueError`. -/
def register_node (st : Blockchain) (now : Nat) (netloc path : String) :
    Except PyError Blockchain :=
  if netloc ≠ "" then Except.ok { st with nodes := odict_set st.nodes netloc now }
  else if path ≠ "" then Except.ok { st with nodes := odict_set st.nodes path now }
  else Except.error PyError.valueError

/-- Method `last_block` (lines 241-242): `self.chain[-1]`, which raises
`IndexError` on an empty chain. -/
def last_block (st : Blockchain) : Except PyError Block :=
  match st.chain.getLast? with
  | some b => Except.ok b
  | none => Except.error PyError.indexError

/-- Line 142 of `proof_of_work`, `last_hash = self.hash(self.last_block)`:
`last_block` is defined as a plain method (line 241, no `@property`), so the
attribute access yields a bound method object, and `json.dumps` inside
`Blockchain.hash` raises `TypeError` (a method is not JSON serialisable)
before the nonce loop can start. -/
def proof_of_work_last_hash (st : Blockchain) : Except PyError String :=
  let _ := st
  Except.error PyError.typeError

/-- Nonce loop of `proof_of_work` (lines 143-146): starting from 0 and
incrementing by 1, return the first nonce accepted by `valid_proof` for the
pending buffer and the given last hash.  The loop terminates exactly when a
qualifying nonce exists, which is the hypothesis `hq`; the returned value is
the least such nonce. -/
def pow_search (H : String → String) (transactions : List Txn)
    (lastHash : String)
    (hq : ∃ n, valid_proof H transactions lastHash n MINING_DIFFICULTY = true) :
    Nat :=
  Nat.find hq

/-- Outcome of `requests.get('http://' + node + '/chain')` for one peer:
either the request raises (peer unreachable), or a response arrives with a
status code and a body; the body field is the joint result of
`response.json()['length']` and `response.json()['chain']`, which raises for
malformed or incomplete JSON. -/
inductive FetchOutcome
  | raise
  | resp (status : Nat) (body : Except PyError (Nat × List Block))

/-- Processing of one peer response inside the loop of `resolve_conflicts`
(lines 226-233): only status 200 is examined, the reported length must exceed
the running maximum, and only then is `valid_chain` consulted. -/
def peer_step (H : String → String) (o : FetchOutcome) (maxL : Nat)
    (nc : Option (List Block)) : Except PyError (Nat × Option (List Block)) :=
  match o with
  | FetchOutcome.raise => Except.error PyError.connectionError
  | FetchOutcome.resp status body =>
    if status = 200 then
      match body with
      | Except.error e => Except.error e
      | Except.ok (length, chain) =>
        if maxL < length then
          match valid_chain H chain with
          | Except.error e => Except.error e
          | Except.ok true => Except.ok (length, some chain)
          | Except.ok false => Except.ok (maxL, nc)
        else Except.ok (maxL, nc)
    else Except.ok (maxL, nc)

/-- Peer loop of `resolve_conflicts` over a list of already obtained fetch
outcomes, threading the running maximum length and best candidate. -/
def scan_peers (H : String → String) :
    List FetchOutcome → Nat → Option (List Block) →
    Except PyError (Nat × Option (List Block))
  | [], maxL, nc => Except.ok (maxL, nc)
  | o :: rest, maxL, nc =>
    match peer_step H o maxL nc with
    | Except.error e => Except.error e
    | Except.ok (m, n) => scan_peers H rest m n

/-- Line 223-224 URL construction `'http://' + node + '/chain'`:
`neighbours` holds the registry VALUES (line 215 keeps `value` of
`self.nodes.items()`), i.e. the `time()` floats recorded by `register_node`,
so the string concatenation raises `TypeError` (cannot concatenate `str` and
`float`). -/
def node_chain_url (nodeValue : Nat) : Except PyError String :=
  let _ := nodeValue
  Except.error PyError.typeError

/-- Peer loop of `resolve_conflicts` as written (lines 222-233): for each
neighbour, build the URL (which raises, see `node_chain_url`), fetch, and
process the response. -/
def resolve_loop (H : String → String) (fetch : String → FetchOutcome) :
    List Nat → Nat → Option (List Block) →
    Except PyError (Nat × Option (List Block))
  | [], maxL, nc => Except.ok (maxL, nc)
  | node :: rest, maxL, nc =>
    match node_chain_url node with
    | Except.error e => Except.error e
    | Except.ok url =>
      match peer_step H (fetch url) maxL nc with
      | Except.error e => Except.error e
      | Except.ok (m, n) => resolve_loop H fetch rest m n

/-- Lines 235-239: `if new_chain:` (Python truthiness: a non-empty list)
replaces the chain and returns `True`; otherwise returns `False`.  An
exception from the loop propagates, leaving the state untouched. -/
def resolve_finish (st : Blockchain) :
    Except PyError (Nat × Option (List Block)) → Except PyError Bool × Blockchain
  | Except.error e => (Except.error e, st)
  | Except.ok (_, none) => (Except.ok false, st)
  | Except.ok (_, some c) =>
    if c.isEmpty then (Except.ok false, st)
    else (Except.ok true, { st with chain := c })

/-- Method `resolve_conflicts` (lines 210-239) as written: neighbours are the
registry values (line 215), the initial maximum is the local chain length
(line 219). -/
def resolve_conflicts (H : String → String) (fetch : String → FetchOutcome)
    (st : Blockchain) : Except PyError Bool × Blockchain :=
  resolve_finish st (resolve_loop H fetch (st.nodes.map Prod.snd) st.chain.length none)

/-- Peer-response processing of `resolve_conflicts` (lines 219-239) with the
network step factored out: the per-peer fetch outcomes are supplied as data,
per the I/O boundary of the design (§4.6 takes the peer chains as input). -/
def resolve_conflicts_core (H : String → String) (st : Blockchain)
    (responses : List FetchOutcome) : Except PyError Bool × Blockchain :=
  resolve_finish st (scan_peers H responses st.chain.length none)

/-- Well-formed peer response carrying a `(length, chain)` pair. -/
def cleanResp (p : Nat × List Block) : FetchOutcome :=
  FetchOutcome.resp 200 (Except.ok p)

/-- Pure candidate-selection step: the effect of one well-formed peer response
on the `(max_length, new_chain)` accumulator. -/
def selStep (H : String → String) (acc : Nat × Option (List Block))
    (p : Nat × List Block) : Nat × Option (List Block) :=
  if acc.1 < p.1 then
    match valid_chain H p.2 with
    | Except.ok true => (p.1, some p.2)
    | _ => acc
  else acc

/-- Concrete abstract hash used to instantiate hypotheses on `H`. -/
def H0 : String → String := fun _ => ""

/-- Concrete abstract hash whose every digest is `"HH"`. -/
def Hc1 : String → String := fun _ => "HH"

/-- Genesis-shaped concrete block. -/
def g0 : Block := ⟨1, 0, [], 0, "00"⟩

/-- Concrete wallet transaction. -/
def t1c : Txn := ⟨"a", "b", "1"⟩

/-- Concrete reward transaction. -/
def t2c : Txn := ⟨"VOIDCOIN", "m", "0.25"⟩

/-- Concrete block holding a wallet transaction followed by a reward, linked
to `g0` under `Hc1`. -/
def b1c : Block := ⟨2, 1, [t1c, t2c], 7, "HH"⟩

/-- Freshly constructed concrete ledger. -/
def st0c : Blockchain := Blockchain.init "node0" 0

/-- Concrete ledger with one registered peer. -/
def st1c : Blockchain := { st0c with nodes := [("127.0.0.1:5000", 5)] }

/-- Concrete single-entry peer response list reporting length 2. -/
def pairs0 : List (Nat × List Block) := [(2, [b1c])]

/-! Helper lemmas shared by the claim theorems. -/

/-- The rebuild of a stored transaction raises `KeyError` on the third key
`value`, whatever the transaction content. -/
theorem reconstruct_keyError (t : Txn) : reconstruct t = Except.error PyError.keyError := by
  rfl

/-- A non-empty rebuild list therefore raises `KeyError` immediately. -/
theorem reconstruct_list_cons (t : Txn) (ts : List Txn) :
    reconstruct_list (t :: ts) = Except.error PyError.keyError := by
  unfold reconstruct_list
  rw [reconstruct_keyError]

/-- An empty chain makes `valid_chain` raise `IndexError` at `chain[0]`. -/
theorem valid_chain_nil (H : String → String) :
    valid_chain H [] = Except.error PyError.indexError := rfl

/-- A single-block chain is accepted by `valid_chain` without inspection. -/
theorem valid_chain_one (H : String → String) (b : Block) :
    valid_chain H [b] = Except.ok true := rfl

/-- A chain that `valid_chain` accepts is non-empty. -/
theorem valid_chain_ok_ne_nil (H : String → String) (c : List Block)
    (h : valid_chain H c = Except.ok true) : c ≠ [] := by
  intro hnil
  rw [hnil, valid_chain_nil] at h
  exact absurd h (by simp)

/-- C10: a candidate chain with exactly one block is accepted by `valid_chain`
whatever that block contains: the loop body never runs, so the block's fields,
nonce, previous hash and transactions are never inspected. -/
theorem valid_chain_singleton (H : String → String) (b : Block) :
    valid_chain H [b] = Except.ok true := rfl

/-- C8: `create_block_and_add_to_chain` appends exactly one block whose
sequence number is `len(chain) + 1` at the call, whose transactions are the
pending buffer's contents at the call, and whose nonce and previous hash are
the given arguments; afterwards the buffer is empty and the chain has grown by
one. -/
theorem create_block_spec (st : Blockchain) (now nonce : Nat) (ph : String) :
    (create_block_and_add_to_chain st now nonce ph).1.block_number = st.chain.length + 1 ∧
    (create_block_and_add_to_chain st now nonce ph).1.transactions = st.transactions ∧
    (create_block_and_add_to_chain st now nonce ph).1.nonce = nonce ∧
    (create_block_and_add_to_chain st now nonce ph).1.previous_hash = ph ∧
    (create_block_and_add_to_chain st now nonce ph).2.transactions = [] ∧
    (create_block_and_add_to_chain st now nonce ph).2.chain
      = st.chain ++ [(create_block_and_add_to_chain st now nonce ph).1] ∧
    (create_block_and_add_to_chain st now nonce ph).2.chain.length = st.chain.length + 1 := by
  refine ⟨rfl, rfl, rfl, rfl, rfl, rfl, ?_⟩
  simp [create_block_and_add_to_chain]

/-- C3: `verify_transaction_signature` never returns a boolean at all: for
every key-parse outcome, signature and transaction it raises (line 88 raises
for a malformed key; line 90's misplaced parenthesis raises for a well-formed
one), contradicting its contract of returning `False` for a bad signature. -/
theorem verify_signature_always_raises (parseKey : String → KeyParse)
    (sender signature : String) (t : Txn) :
    (∀ b : Bool, verify_transaction_signature parseKey sender signature t ≠ Except.ok b) ∧
    (∃ e, verify_transaction_signature parseKey sender signature t = Except.error e) := by
  cases hk : parseKey sender <;>
    simp [verify_transaction_signature, hk]

/-- C1: a hash-linked chain whose second block carries at least two
transactions (e.g. one wallet transaction followed by the reward) makes
`valid_chain` raise `KeyError` instead of returning a verdict: the rebuild on
lines 199-200 reads key `value`, which stored transactions (keyed `amount`) do
not have.  A freshly sealed, untampered chain holding any wallet transaction
therefore never validates. -/
theorem valid_chain_wallet_tx_keyerror (H : String → String) (g b : Block)
    (hlink : b.previous_hash = Blockchain.hash H g)
    (htx : 2 ≤ b.transactions.length) :
    valid_chain H [g, b] = Except.error PyError.keyError := by
  have hne : b.transactions.dropLast ≠ [] := by
    intro hnil
    have := List.length_dropLast b.transactions
    rw [hnil] at this
    simp at this
    omega
  obtain ⟨t, ts, hcons⟩ := List.exists_cons_of_ne_nil hne
  show valid_chain_loop H g [b] = Except.error PyError.keyError
  unfold valid_chain_loop
  rw [hlink, hcons, reconstruct_list_cons]
  simp

/-- Witness for C1 at a concrete input. -/
theorem valid_chain_wallet_tx_keyerror_witness :
    valid_chain Hc1 [g0, b1c] = Except.error PyError.keyError :=
  valid_chain_wallet_tx_keyerror Hc1 g0 b1c rfl (by decide)

/-- C2: `proof_of_work` as written raises `TypeError` before its nonce search
ever starts, because line 142 hashes the method object `self.last_block`
(missing call parentheses); the search loop itself (lines 143-146, embedded as
`pow_search`) is correct: whenever a qualifying nonce exists it returns the
least nonce accepted by `valid_proof` at `MINING_DIFFICULTY`, trying
candidates from 0 in increments of 1, and `valid_proof` accepts the returned
nonce for the same inputs. -/
theorem proof_of_work_analysis :
    (∀ st : Blockchain, proof_of_work_last_hash st = Except.error PyError.typeError) ∧
    (∀ (H : String → String) (ts : List Txn) (lh : String)
        (hq : ∃ n, valid_proof H ts lh n MINING_DIFFICULTY = true),
      valid_proof H ts lh (pow_search H ts lh hq) MINING_DIFFICULTY = true ∧
      ∀ m, m < pow_search H ts lh hq → valid_proof H ts lh m MINING_DIFFICULTY = false) := by
  refine ⟨fun st => rfl, fun H ts lh hq => ⟨Nat.find_spec hq, fun m hm => ?_⟩⟩
  simpa using Nat.find_min hq hm

/-- Witness for C2's loop analysis at a concrete input: under a hash whose
digest starts with two zeros, nonce 0 qualifies and is returned. -/
theorem proof_of_work_analysis_witness :
    valid_proof (fun _ => "00") [] ""
      (pow_search (fun _ => "00") [] "" ⟨0, by decide⟩) MINING_DIFFICULTY = true :=
  (proof_of_work_analysis.2 (fun _ => "00") [] "" ⟨0, by decide⟩).1

/-- C4: for the mint sender the transaction is appended unconditionally and
the next sequence number `len(chain) + 1` is returned; for every other sender
the call raises out of `add_transaction_to_current_array` (because
`verify_transaction_signature` raises on every call), leaving the pending
buffer unchanged — a verification failure is never reported as a returned
rejection value. -/
theorem add_transaction_paths (parseKey : String → KeyParse)
    (st : Blockchain) (r a s : String) :
    (add_transaction_to_current_array parseKey st MINING_SENDER r a s =
      (Except.ok (AddResult.next_block (st.chain.length + 1)),
        { st with transactions := st.transactions ++ [⟨MINING_SENDER, r, a⟩] })) ∧
    (∀ sender, sender ≠ MINING_SENDER →
      ∃ e, add_transaction_to_current_array parseKey st sender r a s =
        (Except.error e, st)) := by
  constructor
  · simp [add_transaction_to_current_array]
  · intro sender hs
    cases hk : parseKey sender <;>
      simp [add_transaction_to_current_array, hs, verify_transaction_signature, hk]

/-- Witness for C4 at concrete inputs. -/
theorem add_transaction_paths_witness :
    (add_transaction_to_current_array (fun _ => KeyParse.valid) st0c MINING_SENDER "m" "0.25" "" =
      (Except.ok (AddResult.next_block (st0c.chain.length + 1)),
        { st0c with transactions := st0c.transactions ++ [⟨MINING_SENDER, "m", "0.25"⟩] })) ∧
    (∃ e, add_transaction_to_current_array (fun _ => KeyParse.valid) st0c "alice" "m" "0.25" "sig" =
      (Except.error e, st0c)) :=
  ⟨(add_transaction_paths (fun _ => KeyParse.valid) st0c "m" "0.25" "").1,
   (add_transaction_paths (fun _ => KeyParse.valid) st0c "m" "0.25" "sig").2 "alice" (by decide)⟩

/-- Lines 235-239 preserve non-emptiness of the chain: an exception or an
absent candidate keep the local chain, and an adopted candidate passed the
truthiness test, so it is a non-empty list. -/
theorem resolve_finish_chain_ne (st : Blockchain)
    (r : Except PyError (Nat × Option (List Block))) (h : st.chain ≠ []) :
    (resolve_finish st r).2.chain ≠ [] := by
  match r with
  | Except.error e => exact h
  | Except.ok (m, none) => exact h
  | Except.ok (m, some c) =>
    by_cases hc : c.isEmpty <;> simp [resolve_finish, hc]
    · exact h
    · simpa [List.isEmpty_iff] using hc

/-- C6 counterexample: a peer whose fetch raises (unreachable peer) is not
skipped — the exception propagates out of the resolution pass. -/
theorem resolve_conflicts_unreachable_peer_raises :
    resolve_conflicts_core H0 st0c [FetchOutcome.raise] =
      (Except.error PyError.connectionError, st0c) := rfl

/-- C6 (amended): among fetch failures, only a non-200 status is skipped as
contributing nothing; a fetch that raises (unreachable peer) or a 200 response
with a malformed body raises out of `resolve_conflicts`, aborting the pass
over the remaining peers. -/
theorem resolve_conflicts_failure_modes (H : String → String) (st : Blockchain)
    (s : Nat) (body : Except PyError (Nat × List Block)) (rest : List FetchOutcome) :
    (s ≠ 200 →
      resolve_conflicts_core H st (FetchOutcome.resp s body :: rest) =
        resolve_conflicts_core H st rest) ∧
    (resolve_conflicts_core H st (FetchOutcome.raise :: rest) =
      (Except.error PyError.connectionError, st)) ∧
    (∀ e, resolve_conflicts_core H st (FetchOutcome.resp 200 (Except.error e) :: rest) =
      (Except.error e, st)) := by
  refine ⟨fun hs => ?_, rfl, fun e => rfl⟩
  simp [resolve_conflicts_core, scan_peers, peer_step, hs]

/-- Witness for C6 at a concrete input: a 404 response is skipped. -/
theorem resolve_conflicts_failure_modes_witness :
    resolve_conflicts_core H0 st0c [FetchOutcome.resp 404 (Except.ok (9, []))] =
      resolve_conflicts_core H0 st0c [] :=
  (resolve_conflicts_failure_modes H0 st0c 404 (Except.ok (9, [])) []).1 (by decide)

/-- C7: `resolve_conflicts` never mutates the node registry, but it also never
issues a fetch to any registered peer's address: line 215 keeps the registry
VALUES (the `time()` floats recorded by `register_node`), not the address
keys, so with any peer registered the URL concatenation `'http://' + node`
raises `TypeError` before any request is made. -/
theorem resolve_conflicts_registry_use (H : String → String)
    (fetch : String → FetchOutcome) (st : Blockchain) :
    (resolve_conflicts H fetch st).2.nodes = st.nodes ∧
    (st.nodes ≠ [] →
      resolve_conflicts H fetch st = (Except.error PyError.typeError, st)) := by
  cases hn : st.nodes with
  | nil => simp [resolve_conflicts, resolve_loop, resolve_finish, hn]
  | cons kv rest =>
    simp [resolve_conflicts, resolve_loop, node_chain_url, resolve_finish, hn]

/-- Witness for C7 at a concrete input. -/
theorem resolve_conflicts_registry_use_witness :
    resolve_conflicts H0 (fun _ => FetchOutcome.raise) st1c =
      (Except.error PyError.typeError, st1c) :=
  (resolve_conflicts_registry_use H0 (fun _ => FetchOutcome.raise) st1c).2 (by decide)

/-- C9: after construction the chain is exactly the genesis block (sequence 1
at index 0, nonce 0, previous hash `'00'`, no transactions); transaction
admission, sealing, node registration and fork resolution all preserve
non-emptiness of the chain, and on a non-empty chain `last_block` returns the
tail block instead of raising. -/
theorem chain_nonempty_invariant :
    (∀ (nid : String) (t0 : Nat),
      (Blockchain.init nid t0).chain =
        [{ block_number := 1, timestamp := t0, transactions := [], nonce := 0,
           previous_hash := "00" }]) ∧
    (∀ pk st sd r a s,
      ((add_transaction_to_current_array pk st sd r a s).2).chain = st.chain) ∧
    (∀ st now n ph, (create_block_and_add_to_chain st now n ph).2.chain ≠ []) ∧
    (∀ st now nl pp st2,
      register_node st now nl pp = Except.ok st2 → st2.chain = st.chain) ∧
    (∀ (H : String → String) (fetch : String → FetchOutcome) (st : Blockchain),
      st.chain ≠ [] → (resolve_conflicts H fetch st).2.chain ≠ []) ∧
    (∀ (H : String → String) (st : Blockchain) (rs : List FetchOutcome),
      st.chain ≠ [] → (resolve_conflicts_core H st rs).2.chain ≠ []) ∧
    (∀ st : Blockchain, st.chain ≠ [] →
      ∃ b, last_block st = Except.ok b) := by
  refine ⟨fun nid t0 => rfl, ?_, ?_, ?_, ?_, ?_, ?_⟩
  · intro pk st sd r a s
    by_cases h : sd = MINING_SENDER
    · simp [add_transaction_to_current_array, h]
    · cases hk : pk sd <;>
        simp [add_transaction_to_current_array, h, verify_transaction_signature, hk]
  · intro st now n ph
    simp [create_block_and_add_to_chain]
  · intro st now nl pp st2 h
    unfold register_node at h
    split at h
    · injection h with h
      subst h
      rfl
    · split at h
      · injection h with h
        subst h
        rfl
      · exact absurd h (by simp)
  · intro H fetch st h
    exact resolve_finish_chain_ne st _ h
  · intro H st rs h
    exact resolve_finish_chain_ne st _ h
  · intro st h
    exact ⟨st.chain.getLast h, by
      unfold last_block
      rw [List.getLast?_eq_getLast_of_ne_nil h]⟩

/-- Witness for C9 at concrete inputs, one per hypothesis-bearing conjunct. -/
theorem chain_nonempty_invariant_witness :
    ({ st0c with nodes := [("127.0.0.1:5000", 7)] } : Blockchain).chain = st0c.chain ∧
    (resolve_conflicts H0 (fun _ => FetchOutcome.raise) st1c).2.chain ≠ [] ∧
    (resolve_conflicts_core H0 st0c [FetchOutcome.raise]).2.chain ≠ [] ∧
    ∃ b, last_block st0c = Except.ok b :=
  ⟨chain_nonempty_invariant.2.2.2.1 st0c 7 "127.0.0.1:5000" ""
      { st0c with nodes := [("127.0.0.1:5000", 7)] } rfl,
   chain_nonempty_invariant.2.2.2.2.1 H0 (fun _ => FetchOutcome.raise) st1c (by decide),
   chain_nonempty_invariant.2.2.2.2.2.1 H0 st0c [FetchOutcome.raise] (by decide),
   chain_nonempty_invariant.2.2.2.2.2.2 st0c (by decide)⟩

/-- A well-formed peer response is processed exactly as the pure selection
step `selStep`, provided its chain's validation does not raise. -/
theorem peer_step_clean (H : String → String) (L : Nat) (c : List Block)
    (maxL : Nat) (nc : Option (List Block))
    (hv : valid_chain H c = Except.ok true ∨ valid_chain H c = Except.ok false) :
    peer_step H (cleanResp (L, c)) maxL nc =
      Except.ok (selStep H (maxL, nc) (L, c)) := by
  unfold peer_step cleanResp selStep
  by_cases hL : maxL < L
  · rcases hv with hv | hv <;> simp [hL, hv]
  · simp [hL]

/-- The peer loop over well-formed, non-raising responses computes the pure
left fold of the selection step. -/
theorem scan_peers_clean (H : String → String) :
    ∀ (pairs : List (Nat × List Block)) (maxL : Nat) (nc : Option (List Block)),
      (∀ p ∈ pairs,
        valid_chain H p.2 = Except.ok true ∨ valid_chain H p.2 = Except.ok false) →
      scan_peers H (pairs.map cleanResp) maxL nc =
        Except.ok (pairs.foldl (selStep H) (maxL, nc)) := by
  intro pairs
  induction pairs with
  | nil => intro maxL nc _; rfl
  | cons p rest ih =>
    intro maxL nc hcl
    obtain ⟨L, c⟩ := p
    have h1 := hcl (L, c) (List.mem_cons_self _ _)
    rw [List.map_cons, List.foldl_cons]
    rcases hs : selStep H (maxL, nc) (L, c) with ⟨m, n⟩
    simp only [scan_peers]
    rw [peer_step_clean H L c maxL nc h1, hs]
    exact ih m n (fun q hq => hcl q (List.mem_cons_of_mem _ hq))

/-- Invariant of the selection fold: the running maximum never decreases, the
final accumulator is either untouched or set by some list entry whose chain
validated and whose reported length beat the initial maximum, and every
validated entry beating the initial maximum is bounded by the final maximum. -/
theorem selStep_spec (H : String → String) :
    ∀ (pairs : List (Nat × List Block)) (maxL : Nat) (nc : Option (List Block)),
      maxL ≤ (pairs.foldl (selStep H) (maxL, nc)).1 ∧
      (pairs.foldl (selStep H) (maxL, nc) = (maxL, nc) ∨
        ∃ p ∈ pairs, pairs.foldl (selStep H) (maxL, nc) = (p.1, some p.2) ∧
          valid_chain H p.2 = Except.ok true ∧ maxL < p.1) ∧
      (∀ p ∈ pairs, maxL < p.1 → valid_chain H p.2 = Except.ok true →
        p.1 ≤ (pairs.foldl (selStep H) (maxL, nc)).1) := by
  intro pairs
  induction pairs with
  | nil => intro maxL nc; exact ⟨le_refl _, Or.inl rfl, by simp⟩
  | cons p rest ih =>
    intro maxL nc
    obtain ⟨L, c⟩ := p
    rw [List.foldl_cons]
    by_cases hL : maxL < L
    · by_cases hv : valid_chain H c = Except.ok true
      · have hsel : selStep H (maxL, nc) (L, c) = (L, some c) := by
          simp [selStep, hL, hv]
        rw [hsel]
        obtain ⟨ihA, ihB, ihC⟩ := ih L (some c)
        refine ⟨le_trans (le_of_lt hL) ihA, ?_, ?_⟩
        · rcases ihB with ihB | ⟨q, hq, hqe, hqv, hqlt⟩
          · exact Or.inr ⟨(L, c), List.mem_cons_self _ _, ihB, hv, hL⟩
          · exact Or.inr ⟨q, List.mem_cons_of_mem _ hq, hqe, hqv, lt_trans hL hqlt⟩
        · intro q hq hql hqv
          rcases List.mem_cons.mp hq with rfl | hq
          · exact ihA
          · by_cases h2 : L < q.1
            · exact ihC q hq h2 hqv
            · exact le_trans (le_of_not_lt h2) ihA
      · have hsel : selStep H (maxL, nc) (L, c) = (maxL, nc) := by
          cases hvc : valid_chain H c with
          | error e => simp [selStep, hvc]
          | ok b =>
            cases b with
            | true => exact absurd hvc hv
            | false => simp [selStep, hvc]
        rw [hsel]
        obtain ⟨ihA, ihB, ihC⟩ := ih maxL nc
        refine ⟨ihA, ?_, ?_⟩
        · rcases ihB with ihB | ⟨q, hq, hqe, hqv, hqlt⟩
          · exact Or.inl ihB
          · exact Or.inr ⟨q, List.mem_cons_of_mem _ hq, hqe, hqv, hqlt⟩
        · intro q hq hql hqv
          rcases List.mem_cons.mp hq with rfl | hq
          · exact absurd hqv hv
          · exact ihC q hq hql hqv
    · have hsel : selStep H (maxL, nc) (L, c) = (maxL, nc) := by
        simp [selStep, hL]
      rw [hsel]
      obtain ⟨ihA, ihB, ihC⟩ := ih maxL nc
      refine ⟨ihA, ?_, ?_⟩
      · rcases ihB with ihB | ⟨q, hq, hqe, hqv, hqlt⟩
        · exact Or.inl ihB
        · exact Or.inr ⟨q, List.mem_cons_of_mem _ hq, hqe, hqv, hqlt⟩
      · intro q hq hql hqv
        rcases List.mem_cons.mp hq with rfl | hq
        · exact absurd hql hL
        · exact ihC q hq hql hqv

/-- C5: over well-formed peer responses, `resolve_conflicts` adopts the
candidate with the greatest reported length among those strictly longer than
the local chain that pass `valid_chain`, replacing the local chain wholesale
and returning true; when no such candidate exists (in particular when every
peer chain has length equal to or below the local one, or fails validation)
the local chain is untouched and false is returned. -/
theorem resolve_conflicts_adoption (H : String → String) (st : Blockchain)
    (pairs : List (Nat × List Block))
    (hclean : ∀ p ∈ pairs,
      valid_chain H p.2 = Except.ok true ∨ valid_chain H p.2 = Except.ok false) :
    ((∃ p ∈ pairs, st.chain.length < p.1 ∧ valid_chain H p.2 = Except.ok true) →
      ∃ p ∈ pairs, st.chain.length < p.1 ∧ valid_chain H p.2 = Except.ok true ∧
        (∀ q ∈ pairs, st.chain.length < q.1 → valid_chain H q.2 = Except.ok true →
          q.1 ≤ p.1) ∧
        resolve_conflicts_core H st (pairs.map cleanResp) =
          (Except.ok true, { st with chain := p.2 })) ∧
    ((¬ ∃ p ∈ pairs, st.chain.length < p.1 ∧ valid_chain H p.2 = Except.ok true) →
      resolve_conflicts_core H st (pairs.map cleanResp) = (Except.ok false, st)) := by
  have hscan := scan_peers_clean H pairs st.chain.length none hclean
  obtain ⟨hA, hB, hC⟩ := selStep_spec H pairs st.chain.length none
  constructor
  · rintro ⟨q, hq, hql, hqv⟩
    rcases hB with hB | ⟨p, hp, hpe, hpv, hpl⟩
    · exfalso
      have hle := hC q hq hql hqv
      rw [hB] at hle
      simp at hle
      omega
    · refine ⟨p, hp, hpl, hpv, ?_, ?_⟩
      · intro q2 hq2 h1 h2
        have hle := hC q2 hq2 h1 h2
        rw [hpe] at hle
        exact hle
      · unfold resolve_conflicts_core
        rw [hscan, hpe]
        have hne : p.2 ≠ [] := valid_chain_ok_ne_nil H p.2 hpv
        have hemp : p.2.isEmpty = false := by simpa [List.isEmpty_iff] using hne
        simp [resolve_finish, hemp]
  · intro hno
    rcases hB with hB | ⟨p, hp, hpe, hpv, hpl⟩
    · unfold resolve_conflicts_core
      rw [hscan, hB]
      rfl
    · exact absurd ⟨p, hp, hpl, hpv⟩ hno

/-- Witness for C5 at a concrete input: one well-formed peer reporting a
longer, valid chain is adopted. -/
theorem resolve_conflicts_adoption_witness :
    ∃ p ∈ pairs0, st0c.chain.length < p.1 ∧ valid_chain H0 p.2 = Except.ok true ∧
      (∀ q ∈ pairs0, st0c.chain.length < q.1 → valid_chain H0 q.2 = Except.ok true →
        q.1 ≤ p.1) ∧
      resolve_conflicts_core H0 st0c (pairs0.map cleanResp) =
        (Except.ok true, { st0c with chain := p.2 }) :=
  (resolve_conflicts_adoption H0 st0c pairs0 (by
      intro p hp
      simp [pairs0] at hp
      subst hp
      exact Or.inl (valid_chain_one H0 b1c))).1
    ⟨(2, [b1c]), by simp [pairs0], by decide, valid_chain_one H0 b1c⟩
